import Mathlib

/-!
Verification of the DAO (staking) transaction builder and cell-selection
engine of a CKB command-line wallet.

The development shallowly embeds the Rust sources:
  * `src/subcommands/dao/builder.rs`   — epoch arithmetic, `DAOBuilder`
  * `src/subcommands/dao/mod.rs`       — cell-selection terminator closures
  * `src/subcommands/functional/spendable.rs`   — cell classifiers
  * `src/subcommands/functional/secp_signer.rs` — witness signer

Machine integers (`u64` in the source, release-mode wrapping semantics) are
modelled as `Nat` with explicit `% 2^64` reductions.  External collaborators
(RPC chain client, index database, blake2b, secp256k1) are modelled as
explicit environment parameters; their internals are out of scope per the
specification.
-/

/-- `2^64`, the modulus of Rust `u64` arithmetic. -/
def U64MOD : Nat := 18446744073709551616

/-- Rust `u64` addition (release-mode wrapping semantics). -/
def u64add (a b : Nat) : Nat := (a + b) % U64MOD

/-- Rust `u64` subtraction (release-mode wrapping semantics); arguments are
`u64` values, i.e. below `U64MOD`. -/
def u64sub (a b : Nat) : Nat := (a + (U64MOD - b % U64MOD)) % U64MOD

/-- Rust `u64` multiplication (release-mode wrapping semantics). -/
def u64mul (a b : Nat) : Nat := (a * b) % U64MOD

theorem u64add_eq {a b : Nat} (h : a + b < U64MOD) : u64add a b = a + b :=
  Nat.mod_eq_of_lt h

theorem u64sub_eq {a b : Nat} (hba : b ≤ a) (ha : a < U64MOD) :
    u64sub a b = a - b := by
  have hb : b < U64MOD := lt_of_le_of_lt hba ha
  unfold u64sub U64MOD at *
  omega

theorem u64mul_eq {a b : Nat} (h : a * b < U64MOD) : u64mul a b = a * b :=
  Nat.mod_eq_of_lt h

/-- Epoch point `(number, index, length)`: a rational position in chain time,
`number + index/length`.  In the source this is `EpochNumberWithFraction`
(a packed `u64`); the accessors `number()`, `index()`, `length()` mask to
24, 16 and 16 bits respectively, so components obtained from a header always
satisfy `number < 2^24`, `index < 2^16`, `length < 2^16`. -/
structure EpochPoint where
  number : Nat
  index : Nat
  length : Nat
  deriving Repr, DecidableEq

/-- `EpochNumberWithFraction::full_value()` composed with `new_unchecked`:
the packed `u64` representation `(length << 40) | (index << 24) | number`. -/
def EpochPoint.fullValue (e : EpochPoint) : Nat :=
  (((e.length <<< 40) % U64MOD) ||| ((e.index <<< 24) % U64MOD) ||| e.number) % U64MOD

/-- `LOCK_PERIOD_EPOCHES` protocol constant from `minimal_unlock_point`. -/
def LOCK_PERIOD_EPOCHES : Nat := 180

/-- `minimal_unlock_point` from `src/subcommands/dao/builder.rs` (lines
262–285), expressed on the epoch points extracted from the two headers
(`deposit_header.epoch()` / `prepare_header.epoch()`). -/
def minimal_unlock_point (deposit_point prepare_point : EpochPoint) : EpochPoint :=
  let prepare_fraction := u64mul prepare_point.index deposit_point.length
  let deposit_fraction := u64mul deposit_point.index prepare_point.length
  let passed_epoch_cnt :=
    if prepare_fraction > deposit_fraction then
      u64add (u64sub prepare_point.number deposit_point.number) 1
    else
      u64sub prepare_point.number deposit_point.number
  let rest_epoch_cnt :=
    u64mul (u64add passed_epoch_cnt (LOCK_PERIOD_EPOCHES - 1) / LOCK_PERIOD_EPOCHES)
      LOCK_PERIOD_EPOCHES
  ⟨u64add deposit_point.number rest_epoch_cnt, deposit_point.index, deposit_point.length⟩

/-- `since_from_absolute_epoch_number` from `src/subcommands/dao/builder.rs`
(lines 294–298): sets the "absolute epoch number" flag bit
`0x2000000000000000`. -/
def since_from_absolute_epoch_number (epoch_number : Nat) : Nat :=
  0x2000000000000000 ||| epoch_number

theorem mul16_lt {a b : Nat} (ha : a < 65536) (hb : b < 65536) : a * b < U64MOD := by
  have h : a * b < 65536 * 65536 :=
    lt_of_le_of_lt (Nat.mul_le_mul_left a (Nat.le_of_lt_succ hb))
      (by have := Nat.mul_lt_mul_of_lt_of_le ha (le_refl 65536) (by norm_num); omega)
  unfold U64MOD; omega

/-- C1. For every deposit epoch point `(dn, di, dl)` and prepare epoch point
`(pn, pi, pl)` with `pn ≥ dn` (components in the ranges guaranteed by the
`EpochNumberWithFraction` accessors), `minimal_unlock_point` returns
`(dn + ceil(elapsed/180)*180, di, dl)` where `elapsed = pn - dn + 1` when
`pi*dl > di*pl` (strict) and `elapsed = pn - dn` otherwise; in particular for
deposit `(5,5,1000)` it maps prepare `(184,4,1000)` to `(185,5,1000)`,
prepare `(185,6,1000)` to `(365,5,1000)`, and prepare `(365,6,1000)` to
`(545,5,1000)`. -/
theorem minimal_unlock_point_spec :
    (∀ dn di dl pn pi pl : Nat,
      dn ≤ pn → pn < 16777216 → di < 65536 → pi < 65536 → dl < 65536 → pl < 65536 →
      minimal_unlock_point ⟨dn, di, dl⟩ ⟨pn, pi, pl⟩ =
        ⟨dn + ((if pi * dl > di * pl then pn - dn + 1 else pn - dn) + 179) / 180 * 180,
          di, dl⟩) ∧
    minimal_unlock_point ⟨5, 5, 1000⟩ ⟨184, 4, 1000⟩ = ⟨185, 5, 1000⟩ ∧
    minimal_unlock_point ⟨5, 5, 1000⟩ ⟨185, 6, 1000⟩ = ⟨365, 5, 1000⟩ ∧
    minimal_unlock_point ⟨5, 5, 1000⟩ ⟨365, 6, 1000⟩ = ⟨545, 5, 1000⟩ := by
  refine ⟨?_, by decide, by decide, by decide⟩
  intro dn di dl pn pi pl hle hpn hdi hpi hdl hpl
  have hM : (16777216 : Nat) < U64MOD := by unfold U64MOD; omega
  have hf1 : u64mul pi dl = pi * dl := u64mul_eq (mul16_lt hpi hdl)
  have hf2 : u64mul di pl = di * pl := u64mul_eq (mul16_lt hdi hpl)
  have hsub : u64sub pn dn = pn - dn := u64sub_eq hle (lt_trans hpn hM)
  unfold minimal_unlock_point
  simp only [hf1, hf2, hsub, LOCK_PERIOD_EPOCHES]
  have hpass : ∀ e : Nat, e ≤ pn + 1 →
      u64mul (u64add e 179 / 180) 180 = (e + 179) / 180 * 180 ∧
      u64add dn (u64mul (u64add e 179 / 180) 180) = dn + (e + 179) / 180 * 180 := by
    intro e he
    have hadd : u64add e 179 = e + 179 := u64add_eq (by unfold U64MOD; omega)
    have hdivle : (e + 179) / 180 * 180 ≤ e + 179 := Nat.div_mul_le_self _ _
    have hmul : u64mul ((e + 179) / 180) 180 = (e + 179) / 180 * 180 :=
      u64mul_eq (by unfold U64MOD; omega)
    refine ⟨by rw [hadd, hmul], ?_⟩
    rw [hadd, hmul]
    exact u64add_eq (by unfold U64MOD; omega)
  by_cases hcmp : pi * dl > di * pl
  · have h1 : u64add (pn - dn) 1 = pn - dn + 1 := u64add_eq (by unfold U64MOD; omega)
    simp only [if_pos hcmp, h1]
    have := (hpass (pn - dn + 1) (by omega)).2
    rw [this]
  · simp only [if_neg hcmp]
    have := (hpass (pn - dn) (by omega)).2
    rw [this]

/-- Witness for C1: instantiates the universally quantified part at the first
test vector, discharging each hypothesis. -/
theorem minimal_unlock_point_spec_witness :
    minimal_unlock_point ⟨5, 5, 1000⟩ ⟨184, 4, 1000⟩ =
      ⟨5 + ((if 4 * 1000 > 5 * 1000 then 184 - 5 + 1 else 184 - 5) + 179) / 180 * 180,
        5, 1000⟩ :=
  minimal_unlock_point_spec.1 5 5 1000 184 4 1000 (by decide) (by decide) (by decide)
    (by decide) (by decide) (by decide)

/-! ## Cell model and classifiers (`src/subcommands/functional/spendable.rs`) -/

/-- `ScriptHashType` of the JSON-RPC types (`Data` or `Type`). -/
inductive ScriptHashType where
  | data
  | type'
  deriving Repr, DecidableEq

/-- A lock or type script as seen through the JSON-RPC cell query: its code
hash and hash type (script args play no role in the classifiers). -/
structure ScriptJ where
  code_hash : Nat
  hash_type : ScriptHashType
  deriving Repr, DecidableEq

/-- The `output` part of a live-cell query response. -/
structure CellOutputJ where
  lock : ScriptJ
  type_ : Option ScriptJ
  deriving Repr, DecidableEq

/-- The `data` part of a live-cell query response (`content` bytes). -/
structure CellDataJ where
  content : List Nat
  deriving Repr, DecidableEq

/-- The cell part of a `CellWithStatus` response. -/
structure CellInfoJ where
  output : CellOutputJ
  data : Option CellDataJ
  deriving Repr, DecidableEq

/-- `CellWithStatus` from the JSON-RPC `get_live_cell` call. -/
structure CellWithStatus where
  status : String
  cell : Option CellInfoJ
  deriving Repr, DecidableEq

/-- `LittleEndian::read_u64` over an 8-byte slice (byte 0 least significant). -/
def leDecode : List Nat → Nat
  | [] => 0
  | b :: rest => b + 256 * leDecode rest

/-- `is_live_cell`: status is "live" and an output is present (the error
printing is an observable-free side effect and is dropped). -/
def is_live_cell (c : CellWithStatus) : Bool :=
  c.status == "live" && c.cell.isSome

/-- `is_none_type_cell`. -/
def is_none_type_cell (c : CellWithStatus) : Bool :=
  (c.cell.map (fun cl => cl.output.type_.isNone)).getD true

/-- `is_empty_data`.  The source unwraps `cell.data` (`.unwrap()`), panicking
when data is absent; the panic branch is modelled as `false` and every theorem
below assumes data is present. -/
def is_empty_data (c : CellWithStatus) : Bool :=
  (c.cell.map (fun cl =>
    match cl.data with
    | some d => d.content.isEmpty
    | none => false)).getD false

/-- `is_live_secp_cell`: live, lock code hash equals the SECP type hash, and
lock hash type is `Type`. -/
def is_live_secp_cell (c : CellWithStatus) (secp_type_hash : Nat) : Bool :=
  if !is_live_cell c then false
  else
    match c.cell with
    | none => false
    | some cl =>
      if !(cl.output.lock.code_hash == secp_type_hash) then false
      else if !(cl.output.lock.hash_type == ScriptHashType.type') then false
      else true

/-- `is_live_deposit_cell` (`spendable.rs` lines 91–117): live, output data
exactly 8 bytes decoding (little-endian u64) to 0, and type script matching
the DAO type hash with hash type `Type`.  The `.unwrap()` on absent data is
modelled as `false` (the source would panic there). -/
def is_live_deposit_cell (c : CellWithStatus) (dao_type_hash : Nat) : Bool :=
  if !is_live_cell c then false
  else
    match c.cell with
    | none => false
    | some cl =>
      match cl.data with
      | none => false
      | some d =>
        if !(d.content.length == 8) then false
        else if !(leDecode d.content == 0) then false
        else
          (cl.output.type_.map (fun script =>
            script.hash_type == ScriptHashType.type' &&
              script.code_hash == dao_type_hash)).getD false

/-- `is_live_prepare_cell` (`spendable.rs` lines 119–146): same as
`is_live_deposit_cell` except the decoded 8-byte value must be non-zero. -/
def is_live_prepare_cell (c : CellWithStatus) (dao_type_hash : Nat) : Bool :=
  if !is_live_cell c then false
  else
    match c.cell with
    | none => false
    | some cl =>
      match cl.data with
      | none => false
      | some d =>
        if !(d.content.length == 8) then false
        else if leDecode d.content == 0 then false
        else
          (cl.output.type_.map (fun script =>
            script.hash_type == ScriptHashType.type' &&
              script.code_hash == dao_type_hash)).getD false

theorem leDecode_eq_zero (l : List Nat) : leDecode l = 0 ↔ ∀ b ∈ l, b = 0 := by
  induction l with
  | nil => simp [leDecode]
  | cons h t ih =>
    simp only [leDecode, List.mem_cons]
    constructor
    · intro hz
      have hh : h = 0 ∧ leDecode t = 0 := by omega
      intro b hb
      rcases hb with hb | hb
      · omega
      · exact (ih.mp hh.2) b hb
    · intro hall
      have hh : h = 0 := hall h (Or.inl rfl)
      have ht : leDecode t = 0 := ih.mpr (fun b hb => hall b (Or.inr hb))
      omega

/-- A live DAO-typed cell fixture: SECP lock, DAO type script, given data
content; used to state the classifier claims. -/
def mkDaoCell (lockS : ScriptJ) (dao_type_hash : Nat) (content : List Nat) :
    CellWithStatus :=
  { status := "live",
    cell := some
      { output := { lock := lockS, type_ := some ⟨dao_type_hash, ScriptHashType.type'⟩ },
        data := some ⟨content⟩ } }

/-- C5. For a live cell whose lock matches the expected ordinary (SECP) lock
and whose type script matches the staking (DAO) type hash:
`is_live_deposit_cell` holds exactly when the output data is 8 bytes decoding
(little-endian u64) to 0, `is_live_prepare_cell` exactly when it is 8 bytes
decoding to a non-zero value; a Deposited cell is never simultaneously
Prepared or Free; and changing any single byte of the 8-byte zero field to a
nonzero value reclassifies the cell as Prepared. -/
theorem dao_cell_classifier_spec (secp_type_hash dao_type_hash : Nat)
    (lockS : ScriptJ) (content : List Nat)
    (_hlock : is_live_secp_cell (mkDaoCell lockS dao_type_hash content) secp_type_hash = true) :
    (is_live_deposit_cell (mkDaoCell lockS dao_type_hash content) dao_type_hash = true ↔
      content.length = 8 ∧ leDecode content = 0) ∧
    (is_live_prepare_cell (mkDaoCell lockS dao_type_hash content) dao_type_hash = true ↔
      content.length = 8 ∧ leDecode content ≠ 0) ∧
    (is_live_deposit_cell (mkDaoCell lockS dao_type_hash content) dao_type_hash = true →
      is_live_prepare_cell (mkDaoCell lockS dao_type_hash content) dao_type_hash = false ∧
      is_none_type_cell (mkDaoCell lockS dao_type_hash content) = false ∧
      is_empty_data (mkDaoCell lockS dao_type_hash content) = false) ∧
    (content = List.replicate 8 0 →
      ∀ i < 8, ∀ v : Nat, v ≠ 0 →
        is_live_prepare_cell
          (mkDaoCell lockS dao_type_hash ((List.replicate 8 0).set i v)) dao_type_hash = true) := by
  have hdep : is_live_deposit_cell (mkDaoCell lockS dao_type_hash content) dao_type_hash = true ↔
      content.length = 8 ∧ leDecode content = 0 := by
    simp [is_live_deposit_cell, is_live_cell, mkDaoCell]
  have hpre : ∀ cnt : List Nat,
      is_live_prepare_cell (mkDaoCell lockS dao_type_hash cnt) dao_type_hash = true ↔
      cnt.length = 8 ∧ leDecode cnt ≠ 0 := by
    intro cnt
    simp [is_live_prepare_cell, is_live_cell, mkDaoCell]
    try tauto
  refine ⟨hdep, hpre content, ?_, ?_⟩
  · intro hd
    rcases hdep.mp hd with ⟨hlen, hzero⟩
    refine ⟨?_, ?_, ?_⟩
    · rw [← Bool.not_eq_true]
      intro hp
      exact (hpre content).mp hp |>.2 hzero
    · simp [is_none_type_cell, mkDaoCell]
    · simp [is_empty_data, mkDaoCell, List.isEmpty_iff]
      intro hc
      rw [hc] at hlen
      simp at hlen
  · intro _ i hi v hv
    refine (hpre _).mpr ⟨by simp, ?_⟩
    intro hzero
    have hvin : v ∈ (List.replicate 8 0).set i v := by
      have hlen : i < ((List.replicate 8 0).set i v).length := by simp; omega
      have hget : ((List.replicate 8 0).set i v)[i] = v :=
        List.getElem_set_self (by simp; omega)
      have hmem := List.getElem_mem hlen
      rwa [hget] at hmem
    exact hv ((leDecode_eq_zero _).mp hzero v hvin)

/-- Witness for C5: instantiates the classifier claims at a concrete live
DAO cell holding the 8-byte zero field. -/
theorem dao_cell_classifier_spec_witness :
    is_live_deposit_cell
      (mkDaoCell ⟨11, ScriptHashType.type'⟩ 22 (List.replicate 8 0)) 22 = true ∧
    is_live_prepare_cell
      (mkDaoCell ⟨11, ScriptHashType.type'⟩ 22 ((List.replicate 8 0).set 3 9)) 22 = true := by
  have h := dao_cell_classifier_spec 11 22 ⟨11, ScriptHashType.type'⟩
    (List.replicate 8 0) (by decide)
  exact ⟨h.1.mpr (by decide), h.2.2.2 rfl 3 (by decide) 9 (by decide)⟩

/-! ## Chain environment (`src/subcommands/functional/chain_client.rs` interface)

The RPC chain client and index database are external collaborators; they are
modelled as an explicit environment of fallible lookups. -/

/-- The genesis-derived protocol hashes and dependency descriptors
(`GenesisInfo` of the SDK); dependency descriptors are abstract identifiers. -/
structure GenesisInfo where
  secp_type_hash : Nat
  dao_type_hash : Nat
  dao_dep : Nat
  secp_dep : Nat
  deriving Repr, DecidableEq

/-- A block header as used by the builder: block number, epoch point
(as extracted by `HeaderView::epoch()`), and block hash. -/
structure Header where
  number : Nat
  epoch : EpochPoint
  hash : Nat
  deriving Repr, DecidableEq

/-- `OutPoint`: reference to an output of a prior transaction. -/
structure OutPoint where
  tx_hash : Nat
  index : Nat
  deriving Repr, DecidableEq

/-- `CellInput`: a consumed out-point plus the `since` lock field. -/
structure CellInput where
  previous_output : OutPoint
  since : Nat
  deriving Repr, DecidableEq

/-- A packed `CellOutput` as assembled by the builder.  `lock = none` models
the unset (default) lock script the builder leaves for the caller to fill. -/
structure CellOutput where
  capacity : Nat
  type_ : Option ScriptJ
  lock : Option ScriptJ
  deriving Repr, DecidableEq

/-- `LiveCellInfo` of the index database: the fields the selector and the
builder read (out-point and capacity). -/
structure LiveCellInfo where
  tx_hash : Nat
  output_index : Nat
  capacity : Nat
  deriving Repr, DecidableEq

/-- `LiveCellInfo::out_point()`. -/
def LiveCellInfo.out_point (info : LiveCellInfo) : OutPoint :=
  ⟨info.tx_hash, info.output_index⟩

/-- `TransactionWithStatus` as consumed by the builder: the transaction's
outputs, its inputs' previous out-points, and the containing block hash
(absent while unconfirmed). -/
structure TransactionWithStatus where
  outputs : List CellOutput
  inputs_previous_outputs : List OutPoint
  block_hash : Option Nat
  deriving Repr, DecidableEq

/-- The external chain-client collaborator: each field mirrors one
`ChainClient` method (RPC transport failures appear as `Except.error`).
`calculate_dao_maximum_withdraw_rpc` is the node's yield computation, an
external oracle modelled as a total function (the source `expect`s on its
transport errors). -/
structure ChainEnv where
  genesis : Except String GenesisInfo
  get_live_cell : OutPoint → Except String CellWithStatus
  get_transaction : Nat → Except String TransactionWithStatus
  get_header : Nat → Except String (Option Header)
  calculate_dao_maximum_withdraw_rpc : OutPoint → Nat → Nat

/-- `ChainClient::secp_type_hash` (fails exactly when genesis resolution fails). -/
def ChainEnv.secp_type_hash (env : ChainEnv) : Except String Nat :=
  env.genesis.map (·.secp_type_hash)

/-- `ChainClient::dao_type_hash` (fails exactly when genesis resolution fails). -/
def ChainEnv.dao_type_hash (env : ChainEnv) : Except String Nat :=
  env.genesis.map (·.dao_type_hash)

/-- `ChainClient::calculate_dao_maximum_withdraw` (`chain_client.rs` lines
93–114): resolve the prepare transaction, its block hash, the deposit
out-point consumed at the same index, then query the node's maximum-withdraw
oracle.  The source's `expect` on a missing input is modelled as an error. -/
def ChainEnv.calculate_dao_maximum_withdraw (env : ChainEnv) (info : LiveCellInfo) :
    Except String Nat := do
  let tx ← env.get_transaction info.tx_hash
  let prepare_block_hash ←
    match tx.block_hash with
    | some h => pure h
    | none => Except.error "invalid prepare out_point, the tx is not committed"
  let deposit_out_point ←
    match tx.inputs_previous_outputs.get? info.out_point.index with
    | some op => pure op
    | none => Except.error "panic: invalid prepare out_point"
  pure (env.calculate_dao_maximum_withdraw_rpc deposit_out_point prepare_block_hash)

/-- `can_spend` from `spendable.rs`. -/
def can_spend (env : ChainEnv) (info : LiveCellInfo) : Except String Bool := do
  let secp_type_hash ← env.secp_type_hash
  let cell ← env.get_live_cell info.out_point
  pure (is_live_secp_cell cell secp_type_hash && is_none_type_cell cell &&
    is_empty_data cell)

/-- `can_deposit` from `spendable.rs`. -/
def can_deposit (env : ChainEnv) (info : LiveCellInfo) : Except String Bool :=
  can_spend env info

/-- `can_prepare` from `spendable.rs`. -/
def can_prepare (env : ChainEnv) (info : LiveCellInfo) : Except String Bool := do
  let secp_type_hash ← env.secp_type_hash
  let dao_type_hash ← env.dao_type_hash
  let cell ← env.get_live_cell info.out_point
  pure (is_live_secp_cell cell secp_type_hash && is_live_deposit_cell cell dao_type_hash)

/-- `can_withdraw` from `spendable.rs`. -/
def can_withdraw (env : ChainEnv) (info : LiveCellInfo) : Except String Bool := do
  let secp_type_hash ← env.secp_type_hash
  let dao_type_hash ← env.dao_type_hash
  let cell ← env.get_live_cell info.out_point
  pure (is_live_secp_cell cell secp_type_hash && is_live_prepare_cell cell dao_type_hash)

/-! ## Cell selector (`src/subcommands/dao/mod.rs` terminator closures) -/

/-- The mutable state captured by the terminator closures of
`DAOSubCommand::{deposit, prepare, withdraw}`: `take_capacity` and `enough`. -/
structure ScanState where
  take_capacity : Nat
  enough : Bool
  deriving Repr, DecidableEq

/-- The common shape of the three terminator closures (`dao/mod.rs` lines
81–99, 155–173, 231–252): skip unless the acceptance predicate returns
`Ok(true)`; take (and stop) exactly when the accumulated capacity plus this
candidate's value equals the target.  The three closures differ only in the
acceptance predicate (`can_deposit` / `can_prepare` / `can_withdraw`) and the
value function (cell capacity, or the maximum-withdraw value for withdraw). -/
def exactMatchTerminator (accept : LiveCellInfo → Except String Bool)
    (value : LiveCellInfo → Nat) (target : Nat)
    (st : ScanState) (info : LiveCellInfo) : Bool × Bool × ScanState :=
  match accept info with
  | Except.ok true =>
    let stop_take :=
      if u64add st.take_capacity (value info) = target then (true, true)
      else (false, false)
    let st1 :=
      if stop_take.2 then
        { st with take_capacity := u64add st.take_capacity (value info) }
      else st
    let st2 := if stop_take.1 then { st1 with enough := true } else st1
    (stop_take.1, stop_take.2, st2)
  | _ => (false, false, st)

/-- `chain_client.calculate_dao_maximum_withdraw(&info).expect(..)` inside the
withdraw terminator; the `expect` panic branch is modelled as 0 and the
withdraw theorems assume the lookup succeeds. -/
def withdraw_value (env : ChainEnv) (info : LiveCellInfo) : Nat :=
  match env.calculate_dao_maximum_withdraw info with
  | Except.ok v => v
  | Except.error _ => 0

/-- The deposit terminator closure (`dao/mod.rs` lines 81–99). -/
def deposit_terminator (env : ChainEnv) (target : Nat) :
    ScanState → LiveCellInfo → Bool × Bool × ScanState :=
  exactMatchTerminator (can_deposit env) (fun info => info.capacity) target

/-- The prepare terminator closure (`dao/mod.rs` lines 155–173). -/
def prepare_terminator (env : ChainEnv) (target : Nat) :
    ScanState → LiveCellInfo → Bool × Bool × ScanState :=
  exactMatchTerminator (can_prepare env) (fun info => info.capacity) target

/-- The withdraw terminator closure (`dao/mod.rs` lines 231–252). -/
def withdraw_terminator (env : ChainEnv) (target : Nat) :
    ScanState → LiveCellInfo → Bool × Bool × ScanState :=
  exactMatchTerminator (can_withdraw env) (withdraw_value env) target

/-- Modelled from the spec: the index database's
`get_live_cells_by_lock(lock_hash, limit, terminator)` collaborator
(spec §4.2 and §6) — its Rust implementation lives in the external
`ckb-index` crate, not in this repository.  It walks candidate cells in
canonical chain order, calls the terminator on each, collects the cells
marked `take`, and stops at the first `stop = true`. -/
def get_live_cells_scan (terminator : ScanState → LiveCellInfo → Bool × Bool × ScanState) :
    ScanState → List LiveCellInfo → List LiveCellInfo × ScanState
  | st, [] => ([], st)
  | st, info :: rest =>
    match terminator st info with
    | (stop, take, st1) =>
      let taken := if take then [info] else []
      if stop then (taken, st1)
      else
        match get_live_cells_scan terminator st1 rest with
        | (more, stFinal) => (taken ++ more, stFinal)

/-- The "Capacity not enough" error message of
`DAOSubCommand::{deposit, prepare, withdraw}` (`dao/mod.rs` lines 113–119):
it renders the sender address and the accumulated capacity. -/
def capacityNotEnoughMsg (from_address : String) (take_capacity : Nat) : String :=
  "Capacity not enough: " ++ from_address ++ " => " ++ toString take_capacity

/-- The selection phase of a `DAOSubCommand` operation: run the scan from the
initial state (`take_capacity = 0`, `enough = false`); if the stream was
exhausted before the stop condition (`!enough`), fail with the
"Capacity not enough" message. -/
def select_cells (terminator : ScanState → LiveCellInfo → Bool × Bool × ScanState)
    (from_address : String) (cells : List LiveCellInfo) :
    Except String (List LiveCellInfo) :=
  match get_live_cells_scan terminator ⟨0, false⟩ cells with
  | (infos, st) =>
    if st.enough then Except.ok infos
    else Except.error (capacityNotEnoughMsg from_address st.take_capacity)

/-- `DAOSubCommand::deposit`, selection phase: target is capacity + fee. -/
def deposit_select (env : ChainEnv) (capacity tx_fee : Nat) (from_address : String)
    (cells : List LiveCellInfo) : Except String (List LiveCellInfo) :=
  select_cells (deposit_terminator env (u64add capacity tx_fee)) from_address cells

/-- `DAOSubCommand::prepare`, selection phase: target is the capacity alone
(the command first asserts `tx_fee == 0`). -/
def prepare_select (env : ChainEnv) (capacity : Nat) (from_address : String)
    (cells : List LiveCellInfo) : Except String (List LiveCellInfo) :=
  select_cells (prepare_terminator env capacity) from_address cells

/-- `DAOSubCommand::withdraw`, selection phase: target is capacity + fee. -/
def withdraw_select (env : ChainEnv) (capacity tx_fee : Nat) (from_address : String)
    (cells : List LiveCellInfo) : Except String (List LiveCellInfo) :=
  select_cells (withdraw_terminator env (u64add capacity tx_fee)) from_address cells

/-! ### Selector lemmas -/

theorem exactMatchTerminator_stop_iff (accept : LiveCellInfo → Except String Bool)
    (value : LiveCellInfo → Nat) (target : Nat) (st : ScanState) (info : LiveCellInfo) :
    (exactMatchTerminator accept value target st info).1 = true ↔
      accept info = Except.ok true ∧ u64add st.take_capacity (value info) = target := by
  unfold exactMatchTerminator
  cases h : accept info with
  | error e => simp [h]
  | ok b =>
    cases b with
    | false => simp [h]
    | true =>
      by_cases hc : u64add st.take_capacity (value info) = target <;> simp [h, hc]

theorem exactMatchTerminator_not_stop (accept : LiveCellInfo → Except String Bool)
    (value : LiveCellInfo → Nat) (target : Nat) (st : ScanState) (info : LiveCellInfo)
    (h : (exactMatchTerminator accept value target st info).1 = false) :
    (exactMatchTerminator accept value target st info).2.1 = false ∧
    (exactMatchTerminator accept value target st info).2.2 = st := by
  unfold exactMatchTerminator at *
  cases ha : accept info with
  | error e => simp [ha]
  | ok b =>
    cases b with
    | false => simp [ha]
    | true =>
      by_cases hc : u64add st.take_capacity (value info) = target
      · rw [ha] at h; simp [hc] at h
      · simp [ha, hc]

theorem exactMatchTerminator_stop_state (accept : LiveCellInfo → Except String Bool)
    (value : LiveCellInfo → Nat) (target : Nat) (st : ScanState) (info : LiveCellInfo)
    (h : (exactMatchTerminator accept value target st info).1 = true) :
    (exactMatchTerminator accept value target st info).2.1 = true ∧
    (exactMatchTerminator accept value target st info).2.2 =
      ⟨u64add st.take_capacity (value info), true⟩ := by
  rcases (exactMatchTerminator_stop_iff accept value target st info).mp h with ⟨ha, hc⟩
  unfold exactMatchTerminator
  simp [ha, hc]

/-- Elements returned by the scan come from the candidate stream. -/
theorem scan_mem_of_mem (terminator : ScanState → LiveCellInfo → Bool × Bool × ScanState) :
    ∀ (cells : List LiveCellInfo) (st : ScanState) (c : LiveCellInfo),
      c ∈ (get_live_cells_scan terminator st cells).1 → c ∈ cells := by
  intro cells
  induction cells with
  | nil => intro st c h; simp [get_live_cells_scan] at h
  | cons info rest ih =>
    intro st c h
    unfold get_live_cells_scan at h
    rcases hterm : terminator st info with ⟨stop, take, st1⟩
    rw [hterm] at h
    simp only at h
    by_cases hstop : stop = true
    · rw [if_pos hstop] at h
      by_cases htake : take = true
      · rw [if_pos htake] at h; simp at h; simp [h]
      · rw [if_neg htake] at h; simp at h
    · rw [if_neg hstop] at h
      rcases hrec : get_live_cells_scan terminator st1 rest with ⟨more, stF⟩
      rw [hrec] at h
      simp only at h
      by_cases htake : take = true
      · rw [if_pos htake] at h
        simp at h
        rcases h with h | h
        · simp [h]
        · exact List.mem_cons_of_mem _ (ih st1 c (by rw [hrec]; exact h))
      · rw [if_neg htake] at h
        simp at h
        exact List.mem_cons_of_mem _ (ih st1 c (by rw [hrec]; exact h))

/-- Under an exact-match terminator, every cell the scan takes was accepted
and its own value completes the target from the state the scan started in. -/
theorem scan_taken_spec (accept : LiveCellInfo → Except String Bool)
    (value : LiveCellInfo → Nat) (target : Nat) :
    ∀ (cells : List LiveCellInfo) (st : ScanState) (c : LiveCellInfo),
      c ∈ (get_live_cells_scan (exactMatchTerminator accept value target) st cells).1 →
      accept c = Except.ok true ∧ u64add st.take_capacity (value c) = target := by
  intro cells
  induction cells with
  | nil => intro st c h; simp [get_live_cells_scan] at h
  | cons info rest ih =>
    intro st c h
    unfold get_live_cells_scan at h
    rcases hterm : exactMatchTerminator accept value target st info with ⟨stop, take, st1⟩
    rw [hterm] at h
    simp only at h
    by_cases hstop : stop = true
    · rw [if_pos hstop] at h
      have hiff := (exactMatchTerminator_stop_iff accept value target st info).mp
        (by rw [hterm]; exact hstop)
      by_cases htake : take = true
      · rw [if_pos htake] at h
        simp at h
        rw [h]
        exact hiff
      · rw [if_neg htake] at h; simp at h
    · have hns := exactMatchTerminator_not_stop accept value target st info
        (by rw [hterm]; simpa using hstop)
      rw [hterm] at hns
      simp only at hns
      rw [if_neg hstop] at h
      rcases hrec : get_live_cells_scan (exactMatchTerminator accept value target) st1 rest
        with ⟨more, stF⟩
      rw [hrec] at h
      simp only at h
      rw [if_neg (by simpa using hns.1)] at h
      simp at h
      have := ih st1 c (by rw [hrec]; exact h)
      rwa [hns.2] at this

/-- Under an exact-match terminator the scan takes at most one cell: a take
always coincides with a stop. -/
theorem scan_length_le_one (accept : LiveCellInfo → Except String Bool)
    (value : LiveCellInfo → Nat) (target : Nat) :
    ∀ (cells : List LiveCellInfo) (st : ScanState),
      (get_live_cells_scan (exactMatchTerminator accept value target) st cells).1.length ≤ 1 := by
  intro cells
  induction cells with
  | nil => intro st; simp [get_live_cells_scan]
  | cons info rest ih =>
    intro st
    unfold get_live_cells_scan
    rcases hterm : exactMatchTerminator accept value target st info with ⟨stop, take, st1⟩
    simp only
    by_cases hstop : stop = true
    · rw [if_pos hstop]
      by_cases htake : take = true <;> simp [htake]
    · have hns := exactMatchTerminator_not_stop accept value target st info
        (by rw [hterm]; simpa using hstop)
      rw [hterm] at hns
      simp only at hns
      rw [if_neg hstop]
      rcases hrec : get_live_cells_scan (exactMatchTerminator accept value target) st1 rest
        with ⟨more, stF⟩
      simp only
      rw [if_neg (by simpa using hns.1)]
      simpa [hrec] using ih st1

/-- One-step equation for `get_live_cells_scan` on a non-empty stream. -/
theorem get_live_cells_scan_cons
    (terminator : ScanState → LiveCellInfo → Bool × Bool × ScanState)
    (st : ScanState) (info : LiveCellInfo) (rest : List LiveCellInfo) :
    get_live_cells_scan terminator st (info :: rest) =
      match terminator st info with
      | (stop, take, st1) =>
        let taken := if take then [info] else []
        if stop then (taken, st1)
        else
          match get_live_cells_scan terminator st1 rest with
          | (more, stFinal) => (taken ++ more, stFinal) := rfl

/-- If the scan ends with `enough = true` starting from `enough = false`,
exactly one cell was taken, it was accepted, and its value completes the
target from the starting accumulation. -/
theorem scan_enough_spec (accept : LiveCellInfo → Except String Bool)
    (value : LiveCellInfo → Nat) (target : Nat) :
    ∀ (cells : List LiveCellInfo) (st : ScanState), st.enough = false →
      (get_live_cells_scan (exactMatchTerminator accept value target) st cells).2.enough = true →
      ∃ c, (get_live_cells_scan (exactMatchTerminator accept value target) st cells).1 = [c] ∧
        accept c = Except.ok true ∧ u64add st.take_capacity (value c) = target := by
  intro cells
  induction cells with
  | nil => intro st hst h; simp [get_live_cells_scan] at h; rw [h] at hst; cases hst
  | cons info rest ih =>
    intro st hst h
    rw [get_live_cells_scan_cons] at h ⊢
    rcases hterm : exactMatchTerminator accept value target st info with ⟨stop, take, st1⟩
    simp only at h ⊢
    rw [hterm] at h
    simp only at h
    by_cases hstop : stop = true
    · have hss := exactMatchTerminator_stop_state accept value target st info
        (by rw [hterm]; exact hstop)
      rw [hterm] at hss
      simp only at hss
      have hiff := (exactMatchTerminator_stop_iff accept value target st info).mp
        (by rw [hterm]; exact hstop)
      rw [if_pos hstop, if_pos hss.1]
      exact ⟨info, rfl, hiff⟩
    · have hns := exactMatchTerminator_not_stop accept value target st info
        (by rw [hterm]; simpa using hstop)
      rw [hterm] at hns
      simp only at hns
      rw [if_neg hstop] at h ⊢
      rcases hrec : get_live_cells_scan (exactMatchTerminator accept value target) st1 rest
        with ⟨more, stF⟩
      simp only at h ⊢
      rw [if_neg (by simpa using hns.1)]
      have hen : stF.enough = true := by rw [hrec] at h; exact h
      have h2 := ih st1 (by rw [hns.2]; exact hst) (by rw [hrec]; exact hen)
      rcases h2 with ⟨c, hc1, hc2, hc3⟩
      rw [hns.2] at hc3
      refine ⟨c, ?_, hc2, hc3⟩
      rw [hrec] at hc1
      simpa using hc1

/-- If no cell of the stream is both accepted and an exact match for the
remaining target, the scan takes nothing and leaves the state unchanged. -/
theorem scan_no_match (accept : LiveCellInfo → Except String Bool)
    (value : LiveCellInfo → Nat) (target : Nat) :
    ∀ (cells : List LiveCellInfo) (st : ScanState),
      (∀ c ∈ cells, ¬(accept c = Except.ok true ∧
        u64add st.take_capacity (value c) = target)) →
      get_live_cells_scan (exactMatchTerminator accept value target) st cells = ([], st) := by
  intro cells
  induction cells with
  | nil => intro st _; simp [get_live_cells_scan]
  | cons info rest ih =>
    intro st hno
    unfold get_live_cells_scan
    rcases hterm : exactMatchTerminator accept value target st info with ⟨stop, take, st1⟩
    simp only
    have hstop : stop = false := by
      by_contra hs
      have hs' : (exactMatchTerminator accept value target st info).1 = true := by
        rw [hterm]; simpa using hs
      exact hno info (List.mem_cons_self _ _)
        ((exactMatchTerminator_stop_iff accept value target st info).mp hs')
    have hns := exactMatchTerminator_not_stop accept value target st info
      (by rw [hterm, hstop])
    rw [hterm] at hns
    simp only at hns
    rw [if_neg (by simp [hstop])]
    have hrest := ih st1 (by
      rw [hns.2]
      intro c hc
      exact hno c (List.mem_cons_of_mem _ hc))
    rw [hrest]
    simp [hns.1, hns.2]

/-- Shared consequence of the exact-match selection flow: a successful
selection is a single accepted cell whose own value equals the target, and a
stream without an exact single match fails. -/
theorem select_cells_single_pick (accept : LiveCellInfo → Except String Bool)
    (value : LiveCellInfo → Nat) (target : Nat) (from_address : String)
    (cells : List LiveCellInfo) :
    (∀ infos, select_cells (exactMatchTerminator accept value target) from_address cells =
        Except.ok infos →
      infos.length ≤ 1 ∧ ∀ c ∈ infos, c ∈ cells ∧ accept c = Except.ok true ∧
        value c % U64MOD = target) ∧
    ((∀ c ∈ cells, accept c = Except.ok true → value c % U64MOD ≠ target) →
      ∃ e, select_cells (exactMatchTerminator accept value target) from_address cells =
        Except.error e) := by
  constructor
  · intro infos hok
    unfold select_cells at hok
    rcases hscan : get_live_cells_scan (exactMatchTerminator accept value target)
      ⟨0, false⟩ cells with ⟨taken, st⟩
    rw [hscan] at hok
    simp only at hok
    by_cases he : st.enough = true
    · rw [if_pos he] at hok
      have hinfos : infos = taken := by
        injection hok with h
        exact h.symm
      subst hinfos
      constructor
      · have := scan_length_le_one accept value target cells ⟨0, false⟩
        rwa [hscan] at this
      · intro c hc
        have hmem : c ∈ cells := by
          apply scan_mem_of_mem (exactMatchTerminator accept value target) cells ⟨0, false⟩
          rw [hscan]; exact hc
        have hts := scan_taken_spec accept value target cells ⟨0, false⟩ c
          (by rw [hscan]; exact hc)
        refine ⟨hmem, hts.1, ?_⟩
        have h2 := hts.2
        simpa [u64add] using h2
    · rw [if_neg he] at hok
      cases hok
  · intro hno
    unfold select_cells
    have h := scan_no_match accept value target cells ⟨0, false⟩ (by
      intro c hc hand
      have : value c % U64MOD = target := by simpa [u64add] using hand.2
      exact hno c hc hand.1 this)
    rw [h]
    exact ⟨_, rfl⟩

/-- C2. For every candidate cell stream and target, when the selection of
`DAOSubCommand::deposit` returns a subset, the subset's total capacity is
either exactly the target (capacity + fee) or exceeds it by at least the
protocol-minimum cell capacity (for any choice of that minimum); a total
strictly between target and target plus the minimum is never returned.  (The
terminator in the code in fact only accepts exact matches, so the total
always equals the target and satisfies the claimed disjunction.) -/
theorem deposit_select_total_capacity_spec (env : ChainEnv) (capacity tx_fee : Nat)
    (from_address : String) (cells infos : List LiveCellInfo)
    (hok : deposit_select env capacity tx_fee from_address cells = Except.ok infos)
    (hcap : ∀ c ∈ cells, c.capacity < U64MOD) (min_cell_capacity : Nat) :
    ((infos.map (fun c => c.capacity)).sum = u64add capacity tx_fee ∨
      (infos.map (fun c => c.capacity)).sum ≥ u64add capacity tx_fee + min_cell_capacity) ∧
    ¬(u64add capacity tx_fee < (infos.map (fun c => c.capacity)).sum ∧
      (infos.map (fun c => c.capacity)).sum < u64add capacity tx_fee + min_cell_capacity) := by
  have hsingle := (select_cells_single_pick (can_deposit env) (fun c => c.capacity)
    (u64add capacity tx_fee) from_address cells).1 infos hok
  have hsum : (infos.map (fun c => c.capacity)).sum = u64add capacity tx_fee := by
    rcases hinfos : infos with _ | ⟨c, rest⟩
    · rw [hinfos] at hok
      exfalso
      unfold deposit_select select_cells deposit_terminator at hok
      rcases hscan : get_live_cells_scan
        (exactMatchTerminator (can_deposit env) (fun c => c.capacity)
          (u64add capacity tx_fee)) ⟨0, false⟩ cells with ⟨taken, st⟩
      rw [hscan] at hok
      simp only at hok
      by_cases he : st.enough = true
      · rw [if_pos he] at hok
        injection hok with h
        have := scan_enough_spec (can_deposit env) (fun c => c.capacity)
          (u64add capacity tx_fee) cells ⟨0, false⟩ rfl (by rw [hscan]; exact he)
        rw [hscan] at this
        rcases this with ⟨c, hc, _⟩
        simp only at hc
        rw [hc] at h
        cases h
      · rw [if_neg he] at hok
        cases hok
    · rw [hinfos] at hsingle
      have hlen := hsingle.1
      have hrest : rest = [] := by
        simp only [List.length_cons] at hlen
        exact List.length_eq_zero.mp (by omega)
      subst hrest
      have hc := hsingle.2 c (List.mem_cons_self _ _)
      have hlt := hcap c hc.1
      have : c.capacity % U64MOD = u64add capacity tx_fee := hc.2.2
      rw [Nat.mod_eq_of_lt hlt] at this
      simpa using this
  refine ⟨Or.inl hsum, ?_⟩
  rw [hsum]
  omega

/-- Witness for C2: a one-cell stream whose single free cell matches the
target exactly. -/
theorem deposit_select_total_capacity_spec_witness :
    ((([(⟨1, 0, 500⟩ : LiveCellInfo)].map (fun c => c.capacity)).sum = u64add 500 0 ∨
      ([(⟨1, 0, 500⟩ : LiveCellInfo)].map (fun c => c.capacity)).sum ≥ u64add 500 0 + 61) ∧
    ¬(u64add 500 0 < ([(⟨1, 0, 500⟩ : LiveCellInfo)].map (fun c => c.capacity)).sum ∧
      ([(⟨1, 0, 500⟩ : LiveCellInfo)].map (fun c => c.capacity)).sum < u64add 500 0 + 61)) :=
  deposit_select_total_capacity_spec
    { genesis := Except.ok ⟨5, 7, 70, 50⟩,
      get_live_cell := fun _ => Except.ok
        { status := "live",
          cell := some { output := { lock := ⟨5, ScriptHashType.type'⟩, type_ := none },
                         data := some ⟨[]⟩ } },
      get_transaction := fun _ => Except.error "none",
      get_header := fun _ => Except.ok none,
      calculate_dao_maximum_withdraw_rpc := fun _ _ => 0 }
    500 0 "addr" [⟨1, 0, 500⟩] [⟨1, 0, 500⟩] rfl
    (by intro c hc; simp at hc; subst hc; decide) 61

/-- C8 (amended). When the candidate stream is exhausted without any accepted
cell exactly matching the target, the deposit selection fails explicitly with
the "Capacity not enough" error, which carries the sender address and the
accumulated amount (necessarily 0 under this terminator) — but not the
requested amount. -/
theorem deposit_select_insufficient_spec (env : ChainEnv) (capacity tx_fee : Nat)
    (from_address : String) (cells : List LiveCellInfo)
    (hno : ∀ c ∈ cells, can_deposit env c = Except.ok true →
      c.capacity % U64MOD ≠ u64add capacity tx_fee) :
    deposit_select env capacity tx_fee from_address cells =
      Except.error (capacityNotEnoughMsg from_address 0) := by
  unfold deposit_select select_cells deposit_terminator
  have h := scan_no_match (can_deposit env) (fun c => c.capacity)
    (u64add capacity tx_fee) cells ⟨0, false⟩ (by
      intro c hc hand
      have hv : c.capacity % U64MOD = u64add capacity tx_fee := by
        simpa [u64add] using hand.2
      exact hno c hc hand.1 hv)
  rw [h]
  rfl

/-- Counterexample for C8 as stated: the failure error does not carry the
requested amount — two runs that differ only in the requested amount (100
vs 200 shannons) produce byte-identical errors, each rendering only the
address and the accumulated amount. -/
theorem deposit_select_error_counterexample :
    deposit_select
        { genesis := Except.ok ⟨5, 7, 70, 50⟩,
          get_live_cell := fun _ => Except.error "RPC get_live_cell error",
          get_transaction := fun _ => Except.error "none",
          get_header := fun _ => Except.ok none,
          calculate_dao_maximum_withdraw_rpc := fun _ _ => 0 }
        100 0 "ckb1qexample" [⟨1, 0, 300⟩] =
      deposit_select
        { genesis := Except.ok ⟨5, 7, 70, 50⟩,
          get_live_cell := fun _ => Except.error "RPC get_live_cell error",
          get_transaction := fun _ => Except.error "none",
          get_header := fun _ => Except.ok none,
          calculate_dao_maximum_withdraw_rpc := fun _ _ => 0 }
        200 0 "ckb1qexample" [⟨1, 0, 300⟩] ∧
    deposit_select
        { genesis := Except.ok ⟨5, 7, 70, 50⟩,
          get_live_cell := fun _ => Except.error "RPC get_live_cell error",
          get_transaction := fun _ => Except.error "none",
          get_header := fun _ => Except.ok none,
          calculate_dao_maximum_withdraw_rpc := fun _ _ => 0 }
        100 0 "ckb1qexample" [⟨1, 0, 300⟩] =
      Except.error "Capacity not enough: ckb1qexample => 0" ∧
    (100 : Nat) ≠ 200 :=
  ⟨rfl, rfl, by decide⟩

/-- Witness for C8's amended theorem: a concrete exhausted stream (the only
candidate's live-cell lookup fails, so it is never accepted). -/
theorem deposit_select_insufficient_spec_witness :
    deposit_select
        { genesis := Except.ok ⟨5, 7, 70, 50⟩,
          get_live_cell := fun _ => Except.error "RPC get_live_cell error",
          get_transaction := fun _ => Except.error "none",
          get_header := fun _ => Except.ok none,
          calculate_dao_maximum_withdraw_rpc := fun _ _ => 0 }
        100 0 "ckb1qexample" [⟨1, 0, 300⟩] =
      Except.error (capacityNotEnoughMsg "ckb1qexample" 0) :=
  deposit_select_insufficient_spec _ 100 0 "ckb1qexample" [⟨1, 0, 300⟩]
    (by
      intro c hc hacc
      exfalso
      simp at hc
      subst hc
      simp [can_deposit, can_spend, ChainEnv.secp_type_hash, Except.map] at hacc
      cases hacc)

/-- C9. Under each of the three selection terminators (deposit, prepare,
withdraw), a successful selection contains at most one cell, and every
selected cell's own value (its capacity, or its maximum-withdraw value for
withdraw) equals the entire target (capacity + fee for deposit and withdraw,
capacity for prepare, whose fee is asserted to 0); and when no single
accepted cell matches the target exactly the selection fails with the
insufficient-capacity error. -/
theorem single_pick_terminator_spec (env : ChainEnv) (capacity tx_fee : Nat)
    (from_address : String) (cells : List LiveCellInfo) :
    (∀ infos, deposit_select env capacity tx_fee from_address cells = Except.ok infos →
      infos.length ≤ 1 ∧ ∀ c ∈ infos, c.capacity % U64MOD = u64add capacity tx_fee) ∧
    (∀ infos, prepare_select env capacity from_address cells = Except.ok infos →
      infos.length ≤ 1 ∧ ∀ c ∈ infos, c.capacity % U64MOD = capacity) ∧
    (∀ infos, withdraw_select env capacity tx_fee from_address cells = Except.ok infos →
      infos.length ≤ 1 ∧ ∀ c ∈ infos,
        withdraw_value env c % U64MOD = u64add capacity tx_fee) ∧
    ((∀ c ∈ cells, can_deposit env c = Except.ok true →
        c.capacity % U64MOD ≠ u64add capacity tx_fee) →
      ∃ e, deposit_select env capacity tx_fee from_address cells = Except.error e) ∧
    ((∀ c ∈ cells, can_prepare env c = Except.ok true →
        c.capacity % U64MOD ≠ capacity) →
      ∃ e, prepare_select env capacity from_address cells = Except.error e) ∧
    ((∀ c ∈ cells, can_withdraw env c = Except.ok true →
        withdraw_value env c % U64MOD ≠ u64add capacity tx_fee) →
      ∃ e, withdraw_select env capacity tx_fee from_address cells = Except.error e) := by
  have hd := select_cells_single_pick (can_deposit env) (fun c => c.capacity)
    (u64add capacity tx_fee) from_address cells
  have hp := select_cells_single_pick (can_prepare env) (fun c => c.capacity)
    capacity from_address cells
  have hw := select_cells_single_pick (can_withdraw env) (withdraw_value env)
    (u64add capacity tx_fee) from_address cells
  refine ⟨?_, ?_, ?_, hd.2, hp.2, hw.2⟩
  · intro infos hok
    have := hd.1 infos hok
    exact ⟨this.1, fun c hc => ((this.2 c hc).2.2)⟩
  · intro infos hok
    have := hp.1 infos hok
    exact ⟨this.1, fun c hc => ((this.2 c hc).2.2)⟩
  · intro infos hok
    have := hw.1 infos hok
    exact ⟨this.1, fun c hc => ((this.2 c hc).2.2)⟩

/-- Witness for C9: a concrete one-cell stream exactly matching the deposit
target, and a concrete no-match stream for the failure conjunct. -/
theorem single_pick_terminator_spec_witness :
    ([(⟨1, 0, 500⟩ : LiveCellInfo)].length ≤ 1 ∧
      ∀ c ∈ [(⟨1, 0, 500⟩ : LiveCellInfo)], c.capacity % U64MOD = u64add 500 0) ∧
    ∃ e, deposit_select
        { genesis := Except.ok ⟨5, 7, 70, 50⟩,
          get_live_cell := fun _ => Except.error "RPC get_live_cell error",
          get_transaction := fun _ => Except.error "none",
          get_header := fun _ => Except.ok none,
          calculate_dao_maximum_withdraw_rpc := fun _ _ => 0 }
        100 0 "ckb1qexample" [⟨1, 0, 300⟩] = Except.error e := by
  constructor
  · exact (single_pick_terminator_spec
      { genesis := Except.ok ⟨5, 7, 70, 50⟩,
        get_live_cell := fun _ => Except.ok
          { status := "live",
            cell := some { output := { lock := ⟨5, ScriptHashType.type'⟩, type_ := none },
                           data := some ⟨[]⟩ } },
        get_transaction := fun _ => Except.error "none",
        get_header := fun _ => Except.ok none,
        calculate_dao_maximum_withdraw_rpc := fun _ _ => 0 }
      500 0 "addr" [⟨1, 0, 500⟩]).1 [⟨1, 0, 500⟩] rfl
  · exact (single_pick_terminator_spec _ 100 0 "ckb1qexample" [⟨1, 0, 300⟩]).2.2.2.1
      (by
        intro c hc hacc
        exfalso
        simp at hc
        subst hc
        simp [can_deposit, can_spend, ChainEnv.secp_type_hash, Except.map] at hacc
        cases hacc)

/-! ## Witness model (molecule `WitnessArgs`) and the witness signer
(`src/subcommands/functional/secp_signer.rs`) -/

/-- A `u32` little-endian encoding (4 bytes), used by molecule headers. -/
def le4 (n : Nat) : List Nat :=
  [n % 256, n / 256 % 256, n / 65536 % 256, n / 16777216 % 256]

/-- A `u64` little-endian encoding (8 bytes), as produced by
`u64::to_le_bytes`. -/
def le8 (n : Nat) : List Nat :=
  [n % 256, n / 256 % 256, n / 65536 % 256, n / 16777216 % 256,
    n / 4294967296 % 256, n / 1099511627776 % 256,
    n / 281474976710656 % 256, n / 72057594037927936 % 256]

/-- `WitnessArgs`: the structured witness with three optional byte fields
(lock proof, input-type auxiliary data, output-type auxiliary data). -/
structure WitnessArgs where
  lock : Option (List Nat)
  input_type : Option (List Nat)
  output_type : Option (List Nat)
  deriving Repr, DecidableEq

/-- `WitnessArgs::default()`: all three fields absent. -/
def WitnessArgs.default : WitnessArgs := ⟨none, none, none⟩

/-- Molecule serialization of one `BytesOpt` field: absent fields occupy no
bytes; present fields are a 4-byte little-endian length followed by the
content. -/
def bytesFieldSer : Option (List Nat) → List Nat
  | none => []
  | some b => le4 b.length ++ b

/-- `WitnessArgs::as_bytes()`: molecule table serialization — total size,
three field offsets (header is 16 bytes), then the three field payloads. -/
def WitnessArgs.as_bytes (wa : WitnessArgs) : List Nat :=
  let f0 := bytesFieldSer wa.lock
  let f1 := bytesFieldSer wa.input_type
  let f2 := bytesFieldSer wa.output_type
  let o0 := 16
  let o1 := o0 + f0.length
  let o2 := o1 + f1.length
  let total := o2 + f2.length
  le4 total ++ le4 o0 ++ le4 o1 ++ le4 o2 ++ f0 ++ f1 ++ f2

/-- Reads a 4-byte little-endian `u32` from the front of a byte list. -/
def readU32LE (l : List Nat) : Option (Nat × List Nat) :=
  match l with
  | b0 :: b1 :: b2 :: b3 :: rest =>
    some (b0 + 256 * b1 + 65536 * b2 + 16777216 * b3, rest)
  | _ => none

/-- Molecule verification of one `BytesOpt` field slice. -/
def bytesFieldParse (l : List Nat) : Option (Option (List Nat)) :=
  match l with
  | [] => some none
  | _ =>
    match readU32LE l with
    | none => none
    | some (n, rest) => if rest.length = n then some (some rest) else none

/-- `WitnessArgs::from_slice`: verify the molecule table layout and recover
the three optional fields. -/
def witnessArgsFromSlice (l : List Nat) : Option WitnessArgs :=
  match readU32LE l with
  | none => none
  | some (total, _) =>
    if l.length ≠ total then none
    else
      match readU32LE (l.drop 4), readU32LE (l.drop 8), readU32LE (l.drop 12) with
      | some (o0, _), some (o1, _), some (o2, _) =>
        if o0 ≠ 16 then none
        else if ¬(o0 ≤ o1 ∧ o1 ≤ o2 ∧ o2 ≤ total) then none
        else
          match bytesFieldParse ((l.drop o0).take (o1 - o0)),
              bytesFieldParse ((l.drop o1).take (o2 - o1)),
              bytesFieldParse ((l.drop o2).take (total - o2)) with
          | some lock, some input_type, some output_type =>
            some ⟨lock, input_type, output_type⟩
          | _, _, _ => none
      | _, _, _ => none

/-- `blake2b_args` from `secp_signer.rs`: sequential blake2b updates over the
argument list hash the concatenation of the arguments; the blake2b primitive
itself is the external `ckb_hash` collaborator, abstracted as `h`. -/
def blake2b_args (h : List Nat → List Nat) (args : List (List Nat)) : List Nat :=
  h args.flatten

/-- `build_secp_witnesses` from `secp_signer.rs` (lines 11–48), parametrised
by the external blake2b collaborator `h` and the signing callback.  Panics of
the source (`witnesses[0]` on an empty vector, the `assert!` on a present
lock field) are modelled as errors. -/
def build_secp_witnesses (h : List Nat → List Nat) (tx_hash : List Nat)
    (witnesses : List (List Nat))
    (signer : List Nat → Except String (List Nat)) :
    Except String (List (List Nat)) :=
  match witnesses with
  | [] => Except.error "panic: index out of bounds"
  | w0 :: rest =>
    let initParse : Except String WitnessArgs :=
      if w0.isEmpty then Except.ok WitnessArgs.default
      else
        match witnessArgsFromSlice w0 with
        | some wa => Except.ok wa
        | none => Except.error "molecule: invalid WitnessArgs"
    match initParse with
    | Except.error e => Except.error e
    | Except.ok init0 =>
      if init0.lock.isSome then
        Except.error "panic: assertion failed: init_witness.lock().is_none()"
      else
        let init_witness : WitnessArgs := { init0 with lock := some (List.replicate 65 0) }
        let sign_args :=
          [tx_hash, le8 init_witness.as_bytes.length, init_witness.as_bytes] ++
            (rest.map (fun w => [le8 w.length, w])).flatten
        let digest := blake2b_args h sign_args
        match signer digest with
        | Except.error e => Except.error e
        | Except.ok signature =>
          let final_witness : WitnessArgs := { init_witness with lock := some signature }
          Except.ok (final_witness.as_bytes :: rest)

/-- C4. For every transaction hash, non-empty witness list and signing
callback, `build_secp_witnesses` invokes the callback exactly on the digest
`hash(tx_hash ‖ len(witness0 with a 65-zero-byte lock) as 8-byte LE ‖ those
bytes ‖ for each remaining witness: its length as 8-byte LE ‖ its bytes)`,
and the returned list differs from the input only at position 0 — whose lock
field now holds the returned signature — while every witness at position 1
and beyond is byte-identical to the input.  (The first witness is either
empty, standing for a default `WitnessArgs`, or parses to one whose lock
field is absent, as the source asserts.) -/
theorem build_secp_witnesses_spec (h : List Nat → List Nat) (tx_hash : List Nat)
    (w0 : List Nat) (rest : List (List Nat)) (init0 : WitnessArgs)
    (signer : List Nat → Except String (List Nat))
    (hparse : (w0 = [] ∧ init0 = WitnessArgs.default) ∨
      (w0 ≠ [] ∧ witnessArgsFromSlice w0 = some init0))
    (hlock : init0.lock = none) :
    build_secp_witnesses h tx_hash (w0 :: rest) signer =
      match signer (blake2b_args h ([tx_hash,
          le8 ({ init0 with lock := some (List.replicate 65 0) } : WitnessArgs).as_bytes.length,
          ({ init0 with lock := some (List.replicate 65 0) } : WitnessArgs).as_bytes] ++
          (rest.map (fun w => [le8 w.length, w])).flatten)) with
      | Except.error e => Except.error e
      | Except.ok signature =>
        Except.ok (({ init0 with lock := some signature } : WitnessArgs).as_bytes :: rest) := by
  unfold build_secp_witnesses
  rcases hparse with ⟨hw0, hinit⟩ | ⟨hw0, hinit⟩
  · subst hw0
    subst hinit
    simp only [List.isEmpty_nil, if_pos rfl]
    rfl
  · have hne : w0.isEmpty = false := by
      cases w0 with
      | nil => exact absurd rfl hw0
      | cons a l => rfl
    have hnotsome : init0.lock.isSome = false := by rw [hlock]; rfl
    simp only [hne, hinit, hnotsome, Bool.false_eq_true, if_false]

/-- Witness for C4: a concrete two-witness transaction (first witness empty),
with a concrete hash collaborator and signing callback. -/
theorem build_secp_witnesses_spec_witness :
    build_secp_witnesses (fun l => l.take 32) (List.replicate 32 1)
        ([] :: [[5, 6]]) (fun _ => Except.ok (List.replicate 65 2)) =
      match (fun (_ : List Nat) => Except.ok (ε := String) (List.replicate 65 2))
          (blake2b_args (fun l => l.take 32) ([List.replicate 32 1,
            le8 ({ WitnessArgs.default with
              lock := some (List.replicate 65 0) } : WitnessArgs).as_bytes.length,
            ({ WitnessArgs.default with
              lock := some (List.replicate 65 0) } : WitnessArgs).as_bytes] ++
            ([[5, 6]].map (fun w => [le8 w.length, w])).flatten)) with
      | Except.error e => Except.error e
      | Except.ok signature =>
        Except.ok (({ WitnessArgs.default with
          lock := some signature } : WitnessArgs).as_bytes :: [[5, 6]]) :=
  build_secp_witnesses_spec (fun l => l.take 32) (List.replicate 32 1) [] [[5, 6]]
    WitnessArgs.default (fun _ => Except.ok (List.replicate 65 2))
    (Or.inl ⟨rfl, rfl⟩) rfl

/-! ## Transaction builder (`src/subcommands/dao/builder.rs`) -/

/-- Rust `Iterator::sum::<u64>()` (release-mode wrapping semantics). -/
def u64sum (l : List Nat) : Nat := l.foldl u64add 0

theorem u64sum_foldl (l : List Nat) :
    ∀ a, a < U64MOD → l.foldl u64add a = (a + l.sum) % U64MOD := by
  induction l with
  | nil => intro a ha; simpa using (Nat.mod_eq_of_lt ha).symm
  | cons x t ih =>
    intro a ha
    have hstep : u64add a x < U64MOD := Nat.mod_lt _ (by unfold U64MOD; omega)
    calc (x :: t).foldl u64add a = t.foldl u64add (u64add a x) := rfl
      _ = (u64add a x + t.sum) % U64MOD := ih (u64add a x) hstep
      _ = ((a + x) % U64MOD + t.sum) % U64MOD := rfl
      _ = (a + x + t.sum) % U64MOD := Nat.mod_add_mod _ _ _
      _ = (a + (x :: t).sum) % U64MOD := by simp [Nat.add_assoc]

theorem u64sum_eq {l : List Nat} (h : l.sum < U64MOD) : u64sum l = l.sum := by
  unfold u64sum
  rw [u64sum_foldl l 0 (by unfold U64MOD; omega)]
  simpa using Nat.mod_eq_of_lt h

/-- The `DAOBuilder` state: requested capacity, transaction fee, selected
live cells. -/
structure DAOBuilder where
  capacity : Nat
  tx_fee : Nat
  live_cells : List LiveCellInfo
  deriving Repr, DecidableEq

/-- The assembled transaction view: inputs, outputs, per-output data, cell
dependencies (abstract descriptors), header dependencies (block hashes), and
per-input witnesses (serialized bytes). -/
structure Transaction where
  inputs : List CellInput
  outputs : List CellOutput
  outputs_data : List (List Nat)
  cell_deps : List Nat
  header_deps : List Nat
  witnesses : List (List Nat)
  deriving Repr, DecidableEq

/-- `dao_type_script` from `builder.rs` (lines 287–292): the staking type
script, hash type `Type`, code hash from genesis. -/
def dao_type_script (env : ChainEnv) : Except String ScriptJ :=
  (env.dao_type_hash).map (fun hsh => ⟨hsh, ScriptHashType.type'⟩)

/-- `DAOBuilder::txo_headers` (`builder.rs` lines 231–259): for each
out-point, resolve its transaction, the containing block header (error
"Tx is not on-chain" when unconfirmed) and the referenced output (error
"OutPoint is out of index").  The source's `expect` on a vanished header is
modelled as an error. -/
def txo_headers (env : ChainEnv) :
    List OutPoint → Except String (List (OutPoint × CellOutput × Header))
  | [] => Except.ok []
  | out_point :: rest => do
    let tx_status ← env.get_transaction out_point.tx_hash
    let block_hash ←
      match tx_status.block_hash with
      | some hsh => pure hsh
      | none => Except.error "Tx is not on-chain"
    let headerOpt ← env.get_header block_hash
    let header ←
      match headerOpt with
      | some hd => pure hd
      | none => Except.error "panic: checked above"
    let output ←
      match tx_status.outputs.get? out_point.index with
      | some o => pure o
      | none => Except.error "OutPoint is out of index"
    let ret ← txo_headers env rest
    pure ((out_point, output, header) :: ret)

/-- The classification loop at the head of `DAOBuilder::prepare` (`builder.rs`
lines 80–88): split the selected cells into deposit cells (`can_prepare`)
and fee/change cells, propagating classification errors. -/
def partitionPrepare (env : ChainEnv) :
    List LiveCellInfo → Except String (List LiveCellInfo × List LiveCellInfo)
  | [] => Except.ok ([], [])
  | info :: rest => do
    let b ← can_prepare env info
    let (deposit_cells, change_cells) ← partitionPrepare env rest
    if b then pure (info :: deposit_cells, change_cells)
    else pure (deposit_cells, info :: change_cells)

/-- First-occurrence deduplication.  The source collects header hashes into a
`HashSet` (iteration order unspecified) before re-collecting to a vector;
no claim below depends on the resulting order, which is modelled as
order-preserving first-occurrence deduplication. -/
def dedupFirst (l : List Nat) : List Nat :=
  l.foldl (fun acc x => if x ∈ acc then acc else acc ++ [x]) []

/-- The deposit-out-point recovery at the head of `DAOBuilder::withdraw`
(`builder.rs` lines 150–169): for each prepare out-point, the deposit
out-point is the previous output of the prepare transaction's input at the
same index.  The source's `expect`s are modelled as errors. -/
def deposit_out_points_of (env : ChainEnv) :
    List OutPoint → Except String (List OutPoint)
  | [] => Except.ok []
  | op :: rest => do
    let tx ← env.get_transaction op.tx_hash
    let input ←
      match tx.inputs_previous_outputs.get? op.index with
      | some i => pure i
      | none => Except.error "panic: prepare out_point has the same index with deposit input"
    let ret ← deposit_out_points_of env rest
    pure (input :: ret)

/-- `DAOBuilder::deposit` (`builder.rs` lines 30–73). -/
def DAOBuilder.deposit (env : ChainEnv) (b : DAOBuilder) :
    Except String Transaction := do
  let genesis_info ← env.genesis
  let deposit_capacity := b.capacity
  let inputs := b.live_cells.map (fun txo => CellInput.mk txo.out_point 0)
  let witnesses := inputs.map (fun _ => ([] : List Nat))
  let dao_script ← dao_type_script env
  let output : CellOutput :=
    { capacity := deposit_capacity, type_ := some dao_script, lock := none }
  let output_data := List.replicate 8 0
  let cell_deps := [genesis_info.dao_dep]
  let input_capacity := u64sum (b.live_cells.map (fun txo => txo.capacity))
  let change_capacity := u64sub (u64sub input_capacity b.capacity) b.tx_fee
  if change_capacity > 0 then
    pure { inputs := inputs,
           outputs := [output, { capacity := change_capacity, type_ := none, lock := none }],
           outputs_data := [output_data, []],
           cell_deps := cell_deps, header_deps := [], witnesses := witnesses }
  else
    pure { inputs := inputs, outputs := [output], outputs_data := [output_data],
           cell_deps := cell_deps, header_deps := [], witnesses := witnesses }

/-- `DAOBuilder::prepare` (`builder.rs` lines 75–135).  Each deposit cell's
output is re-emitted unchanged while its data becomes the deposit block
number (8-byte LE); a final change output carries the fee cells' capacity
minus the fee; every witness is a default `WitnessArgs` serialization. -/
def DAOBuilder.prepare (env : ChainEnv) (b : DAOBuilder) :
    Except String Transaction := do
  let genesis_info ← env.genesis
  let parts ← partitionPrepare env b.live_cells
  let deposit_cells := parts.1
  let change_cells := parts.2
  let deposit_txo_headers ← txo_headers env (deposit_cells.map (fun txo => txo.out_point))
  let inputs := b.live_cells.map (fun txo => CellInput.mk txo.out_point 0)
  let outputs := deposit_txo_headers.map (fun e => e.2.1)
  let outputs_data := deposit_txo_headers.map (fun e => le8 e.2.2.number)
  let cell_deps := [genesis_info.dao_dep]
  let header_deps := dedupFirst (deposit_txo_headers.map (fun e => e.2.2.hash))
  let witnesses := (List.range inputs.length).map (fun _ => WitnessArgs.default.as_bytes)
  let change_capacity :=
    u64sub (u64sum (change_cells.map (fun txo => txo.capacity))) b.tx_fee
  let change : CellOutput := { capacity := change_capacity, type_ := none, lock := none }
  pure { inputs := inputs, outputs := outputs ++ [change],
         outputs_data := outputs_data ++ [[]], cell_deps := cell_deps,
         header_deps := header_deps, witnesses := witnesses }

/-- `DAOBuilder::withdraw` (`builder.rs` lines 137–229). -/
def DAOBuilder.withdraw (env : ChainEnv) (b : DAOBuilder) :
    Except String Transaction := do
  let genesis_info ← env.genesis
  let prepare_txo_headers ← txo_headers env (b.live_cells.map (fun txo => txo.out_point))
  let deposit_out_points ← deposit_out_points_of env (prepare_txo_headers.map (fun e => e.1))
  let deposit_txo_headers ← txo_headers env deposit_out_points
  let inputs := (deposit_txo_headers.zip prepare_txo_headers).map (fun p =>
    let deposit_header := p.1.2.2
    let out_point := p.2.1
    let prepare_header := p.2.2.2
    let unlock_point := minimal_unlock_point deposit_header.epoch prepare_header.epoch
    CellInput.mk out_point (since_from_absolute_epoch_number unlock_point.fullValue))
  let total_capacity := u64sum ((deposit_txo_headers.zip prepare_txo_headers).map (fun p =>
    env.calculate_dao_maximum_withdraw_rpc p.1.1 p.2.2.2.hash))
  let output_capacity := u64sub total_capacity b.tx_fee
  let output : CellOutput := { capacity := output_capacity, type_ := none, lock := none }
  let cell_deps := [genesis_info.dao_dep]
  let header_deps :=
    dedupFirst ((deposit_txo_headers ++ prepare_txo_headers).map (fun e => e.2.2.hash))
  let witnesses := deposit_txo_headers.map (fun e =>
    let index := List.indexOf e.2.2.hash header_deps
    (WitnessArgs.mk none (some (le8 index)) none).as_bytes)
  pure { inputs := inputs, outputs := [output], outputs_data := [[]],
         cell_deps := cell_deps, header_deps := header_deps, witnesses := witnesses }

/-- C3. For every selection of input cells (with `u64`-bounded total), a
deposit transaction has exactly one output — the deposit cell: requested
capacity, staking type script, 8-zero-byte data — when total input capacity
minus requested amount minus fee is exactly zero, and exactly two outputs —
the deposit cell plus a change output holding the remainder with empty data
and no type script — when that remainder is positive. -/
theorem deposit_outputs_spec (env : ChainEnv) (g : GenesisInfo) (b : DAOBuilder)
    (tx : Transaction)
    (hg : env.genesis = Except.ok g)
    (hok : DAOBuilder.deposit env b = Except.ok tx)
    (hbound : (b.live_cells.map (fun txo => txo.capacity)).sum < U64MOD) :
    ((b.live_cells.map (fun txo => txo.capacity)).sum = b.capacity + b.tx_fee →
      tx.outputs = [CellOutput.mk b.capacity
        (some ⟨g.dao_type_hash, ScriptHashType.type'⟩) none] ∧
      tx.outputs_data = [List.replicate 8 0]) ∧
    (b.capacity + b.tx_fee < (b.live_cells.map (fun txo => txo.capacity)).sum →
      tx.outputs = [CellOutput.mk b.capacity
          (some ⟨g.dao_type_hash, ScriptHashType.type'⟩) none,
        CellOutput.mk ((b.live_cells.map (fun txo => txo.capacity)).sum
            - b.capacity - b.tx_fee) none none] ∧
      tx.outputs_data = [List.replicate 8 0, []]) := by
  have hsumeq : u64sum (b.live_cells.map (fun txo => txo.capacity)) =
      (b.live_cells.map (fun txo => txo.capacity)).sum := u64sum_eq hbound
  unfold DAOBuilder.deposit at hok
  rw [hg] at hok
  simp only [bind, Except.bind, dao_type_script, ChainEnv.dao_type_hash, hg,
    Except.map, hsumeq] at hok
  constructor
  · intro hzero
    have hch : u64sub (u64sub ((b.live_cells.map (fun txo => txo.capacity)).sum)
        b.capacity) b.tx_fee = 0 := by
      rw [u64sub_eq (by omega) hbound, u64sub_eq (by omega) (by omega)]
      omega
    rw [hch] at hok
    simp only [gt_iff_lt, Nat.lt_irrefl, if_false, pure, Except.pure] at hok
    injection hok with hokx
    rw [← hokx]
    exact ⟨rfl, rfl⟩
  · intro hpos
    have hch : u64sub (u64sub ((b.live_cells.map (fun txo => txo.capacity)).sum)
        b.capacity) b.tx_fee =
        (b.live_cells.map (fun txo => txo.capacity)).sum - b.capacity - b.tx_fee := by
      rw [u64sub_eq (by omega) hbound, u64sub_eq (by omega) (by omega)]
    rw [hch] at hok
    rw [if_pos (by omega)] at hok
    simp only [pure, Except.pure] at hok
    injection hok with hokx
    rw [← hokx]
    exact ⟨rfl, rfl⟩

/-- Witness for C3: a single 520-capacity input funding a 500 deposit with
fee 20 (zero remainder: one output). -/
theorem deposit_outputs_spec_witness :
    (([(⟨1, 0, 520⟩ : LiveCellInfo)].map (fun txo => txo.capacity)).sum = 500 + 20 ∧
      ({ inputs := [⟨⟨1, 0⟩, 0⟩],
         outputs := [CellOutput.mk 500 (some ⟨7, ScriptHashType.type'⟩) none],
         outputs_data := [List.replicate 8 0], cell_deps := [70],
         header_deps := [], witnesses := [[]] } : Transaction).outputs =
        [CellOutput.mk 500 (some ⟨7, ScriptHashType.type'⟩) none] ∧
      ({ inputs := [⟨⟨1, 0⟩, 0⟩],
         outputs := [CellOutput.mk 500 (some ⟨7, ScriptHashType.type'⟩) none],
         outputs_data := [List.replicate 8 0], cell_deps := [70],
         header_deps := [], witnesses := [[]] } : Transaction).outputs_data =
        [List.replicate 8 0]) := by
  refine ⟨by decide, ?_⟩
  exact (deposit_outputs_spec
    { genesis := Except.ok ⟨5, 7, 70, 50⟩,
      get_live_cell := fun _ => Except.error "RPC get_live_cell error",
      get_transaction := fun _ => Except.error "RPC get_transaction error",
      get_header := fun _ => Except.error "RPC get_header error",
      calculate_dao_maximum_withdraw_rpc := fun _ _ => 0 }
    ⟨5, 7, 70, 50⟩ ⟨500, 20, [⟨1, 0, 520⟩]⟩ _ rfl rfl (by decide)).1 (by decide)

/-- C10. `DAOBuilder::deposit` computes the change capacity by the unchecked
`u64` subtraction `input_capacity - capacity - tx_fee` and
`DAOBuilder::prepare` by `sum(change_cells) - tx_fee`; under the respective
preconditions (`capacity + tx_fee ≤ input_capacity`, `tx_fee ≤ fee-cell
sum`), the subtraction is wrap-free (the underflow branch is unreachable);
and for inputs violating the precondition the builder still succeeds —
it never returns an insufficient-capacity error at this layer. -/
theorem unchecked_change_subtraction_spec :
    (∀ (env : ChainEnv) (g : GenesisInfo) (b : DAOBuilder),
      env.genesis = Except.ok g →
      ∃ tx, DAOBuilder.deposit env b = Except.ok tx) ∧
    (∀ input_capacity capacity tx_fee : Nat,
      capacity + tx_fee ≤ input_capacity → input_capacity < U64MOD →
      u64sub (u64sub input_capacity capacity) tx_fee =
        input_capacity - capacity - tx_fee) ∧
    (∀ change_sum tx_fee : Nat, tx_fee ≤ change_sum → change_sum < U64MOD →
      u64sub change_sum tx_fee = change_sum - tx_fee) ∧
    (∀ (env : ChainEnv) (g : GenesisInfo) (b : DAOBuilder)
      (parts : List LiveCellInfo × List LiveCellInfo)
      (dth : List (OutPoint × CellOutput × Header)),
      env.genesis = Except.ok g →
      partitionPrepare env b.live_cells = Except.ok parts →
      txo_headers env (parts.1.map (fun txo => txo.out_point)) = Except.ok dth →
      ∃ tx, DAOBuilder.prepare env b = Except.ok tx) := by
  refine ⟨?_, ?_, ?_, ?_⟩
  · intro env g b hg
    unfold DAOBuilder.deposit
    rw [hg]
    simp only [bind, Except.bind, dao_type_script, ChainEnv.dao_type_hash, hg, Except.map]
    by_cases hc : u64sub (u64sub (u64sum (b.live_cells.map (fun txo => txo.capacity)))
        b.capacity) b.tx_fee > 0
    · rw [if_pos hc]; exact ⟨_, rfl⟩
    · rw [if_neg hc]; exact ⟨_, rfl⟩
  · intro input_capacity capacity tx_fee hpre hlt
    rw [u64sub_eq (by omega) hlt, u64sub_eq (by omega) (by omega)]
  · intro change_sum tx_fee hpre hlt
    rw [u64sub_eq hpre hlt]
  · intro env g b parts dth hg hparts hth
    unfold DAOBuilder.prepare
    rw [hg]
    simp only [bind, Except.bind, hparts, hth]
    exact ⟨_, rfl⟩

/-- Witness for C10: a concrete deposit succeeding on an input below the
requested capacity (precondition violated, still no capacity error), and the
wrap-free subtraction facts at concrete values. -/
theorem unchecked_change_subtraction_spec_witness :
    (∃ tx, DAOBuilder.deposit
      { genesis := Except.ok ⟨5, 7, 70, 50⟩,
        get_live_cell := fun _ => Except.error "RPC get_live_cell error",
        get_transaction := fun _ => Except.error "RPC get_transaction error",
        get_header := fun _ => Except.error "RPC get_header error",
        calculate_dao_maximum_withdraw_rpc := fun _ _ => 0 }
      ⟨500, 20, [⟨1, 0, 100⟩]⟩ = Except.ok tx) ∧
    u64sub (u64sub 520 500) 20 = 520 - 500 - 20 ∧
    u64sub 600 20 = 600 - 20 :=
  ⟨unchecked_change_subtraction_spec.1 _ ⟨5, 7, 70, 50⟩ ⟨500, 20, [⟨1, 0, 100⟩]⟩ rfl,
    unchecked_change_subtraction_spec.2.1 520 500 20 (by decide) (by decide),
    unchecked_change_subtraction_spec.2.2.1 600 20 (by decide) (by decide)⟩

/-! ### Concrete chain fixtures for the builder claims -/

/-- Fixture genesis: SECP hash 5, DAO hash 7, DAO dep 70, SECP dep 50. -/
def fixtureGenesis : GenesisInfo := ⟨5, 7, 70, 50⟩

/-- Fixture environment: out-point (1,0) is a live deposit cell whose
transaction 1 sits in block 99 (number 123, epoch (5,5,1000)); out-point
(2,0) is a live free cell; out-point (3,0) is a prepare cell whose
transaction 3 sits in block 88 (number 200, epoch (185,6,1000)) and consumes
the deposit out-point (1,0); the maximum-withdraw oracle answers 1005. -/
def fixtureEnv : ChainEnv :=
  { genesis := Except.ok fixtureGenesis,
    get_live_cell := fun op =>
      if op = ⟨1, 0⟩ then Except.ok
        { status := "live",
          cell := some { output := { lock := ⟨5, ScriptHashType.type'⟩,
                                     type_ := some ⟨7, ScriptHashType.type'⟩ },
                         data := some ⟨List.replicate 8 0⟩ } }
      else if op = ⟨2, 0⟩ then Except.ok
        { status := "live",
          cell := some { output := { lock := ⟨5, ScriptHashType.type'⟩, type_ := none },
                         data := some ⟨[]⟩ } }
      else Except.error "RPC get_live_cell error",
    get_transaction := fun h =>
      if h = 1 then Except.ok
        { outputs := [CellOutput.mk 1000 (some ⟨7, ScriptHashType.type'⟩)
            (some ⟨5, ScriptHashType.type'⟩)],
          inputs_previous_outputs := [], block_hash := some 99 }
      else if h = 3 then Except.ok
        { outputs := [CellOutput.mk 1000 (some ⟨7, ScriptHashType.type'⟩)
            (some ⟨5, ScriptHashType.type'⟩)],
          inputs_previous_outputs := [⟨1, 0⟩], block_hash := some 88 }
      else Except.error "RPC get_transaction error",
    get_header := fun h =>
      if h = 99 then Except.ok (some ⟨123, ⟨5, 5, 1000⟩, 99⟩)
      else if h = 88 then Except.ok (some ⟨200, ⟨185, 6, 1000⟩, 88⟩)
      else Except.error "RPC get_header error",
    calculate_dao_maximum_withdraw_rpc := fun _ _ => 1005 }

/-- Fixture prepare builder: one deposit cell and one fee cell. -/
def fixturePrepareBuilder : DAOBuilder := ⟨1000, 0, [⟨1, 0, 1000⟩, ⟨2, 0, 600⟩]⟩

/-- The transaction `DAOBuilder::prepare` assembles on the fixture. -/
def fixturePrepareTx : Transaction :=
  { inputs := [⟨⟨1, 0⟩, 0⟩, ⟨⟨2, 0⟩, 0⟩],
    outputs := [CellOutput.mk 1000 (some ⟨7, ScriptHashType.type'⟩)
        (some ⟨5, ScriptHashType.type'⟩),
      CellOutput.mk 600 none none],
    outputs_data := [le8 123, []],
    cell_deps := [70], header_deps := [99],
    witnesses := [WitnessArgs.default.as_bytes, WitnessArgs.default.as_bytes] }

/-- Counterexample for C7 as stated: on a concrete prepare build with one
Deposited input (out-point (1,0), `can_prepare` true) and one fee input
(out-point (2,0), `can_prepare` false), every witness — the Deposited
input's included — is the serialization of the default `WitnessArgs`, whose
auxiliary input-type field is `none` (no header-dependency index is
encoded), and the fee input's witness is those same 16 bytes, not empty. -/
theorem prepare_witnesses_counterexample :
    DAOBuilder.prepare fixtureEnv fixturePrepareBuilder = Except.ok fixturePrepareTx ∧
    can_prepare fixtureEnv ⟨1, 0, 1000⟩ = Except.ok true ∧
    can_prepare fixtureEnv ⟨2, 0, 600⟩ = Except.ok false ∧
    fixturePrepareTx.witnesses = [WitnessArgs.default.as_bytes, WitnessArgs.default.as_bytes] ∧
    witnessArgsFromSlice WitnessArgs.default.as_bytes = some WitnessArgs.default ∧
    WitnessArgs.default.input_type = none ∧
    WitnessArgs.default.as_bytes ≠ [] :=
  ⟨rfl, rfl, rfl, rfl, by decide, rfl, by decide⟩

/-- C7 (amended). In every prepare transaction built by `DAOBuilder::prepare`,
every input's witness — for Deposited inputs and fee-covering inputs alike —
is the serialization of the default (all-fields-absent) structured witness:
non-empty bytes whose auxiliary input-type field encodes nothing.  (The
header-dependency-index witness encoding appears only in
`DAOBuilder::withdraw`.) -/
theorem prepare_witnesses_spec (env : ChainEnv) (b : DAOBuilder) (tx : Transaction)
    (hok : DAOBuilder.prepare env b = Except.ok tx) :
    tx.witnesses = List.replicate b.live_cells.length WitnessArgs.default.as_bytes ∧
    WitnessArgs.default.input_type = none ∧
    WitnessArgs.default.as_bytes ≠ [] := by
  refine ⟨?_, rfl, by decide⟩
  unfold DAOBuilder.prepare at hok
  cases hg : env.genesis with
  | error e => rw [hg] at hok; simp [bind, Except.bind] at hok
  | ok g =>
    rw [hg] at hok
    simp only [bind, Except.bind] at hok
    cases hparts : partitionPrepare env b.live_cells with
    | error e => rw [hparts] at hok; simp [Except.bind] at hok
    | ok parts =>
      rw [hparts] at hok
      simp only [Except.bind] at hok
      cases hth : txo_headers env (parts.1.map (fun txo => txo.out_point)) with
      | error e => rw [hth] at hok; simp [Except.bind] at hok
      | ok dth =>
        rw [hth] at hok
        simp only [Except.bind, pure, Except.pure] at hok
        injection hok with hokx
        rw [← hokx]
        simp [List.length_map]

/-- Witness for C7's amended theorem: the fixture prepare build. -/
theorem prepare_witnesses_spec_witness :
    fixturePrepareTx.witnesses =
      List.replicate fixturePrepareBuilder.live_cells.length WitnessArgs.default.as_bytes ∧
    WitnessArgs.default.input_type = none ∧
    WitnessArgs.default.as_bytes ≠ [] :=
  prepare_witnesses_spec fixtureEnv fixturePrepareBuilder fixturePrepareTx rfl

/-- C6. For every Prepared input of a withdraw transaction, the `since`
field equals `0x2000000000000000` bitwise-or'ed with the packed value of the
epoch point returned by `minimal_unlock_point` for that input's deposit and
prepare headers. -/
theorem withdraw_since_spec (env : ChainEnv) (g : GenesisInfo) (b : DAOBuilder)
    (tx : Transaction)
    (prepare_hdrs deposit_hdrs : List (OutPoint × CellOutput × Header))
    (dops : List OutPoint)
    (hg : env.genesis = Except.ok g)
    (hp : txo_headers env (b.live_cells.map (fun txo => txo.out_point)) =
      Except.ok prepare_hdrs)
    (hdop : deposit_out_points_of env (prepare_hdrs.map (fun e => e.1)) =
      Except.ok dops)
    (hd : txo_headers env dops = Except.ok deposit_hdrs)
    (hok : DAOBuilder.withdraw env b = Except.ok tx) :
    tx.inputs = (deposit_hdrs.zip prepare_hdrs).map (fun p =>
      CellInput.mk p.2.1 (0x2000000000000000 |||
        (minimal_unlock_point p.1.2.2.epoch p.2.2.2.epoch).fullValue)) := by
  unfold DAOBuilder.withdraw at hok
  rw [hg] at hok
  simp only [bind, Except.bind, hp, hdop, hd, pure, Except.pure] at hok
  injection hok with hokx
  rw [← hokx]
  simp only [since_from_absolute_epoch_number]

/-- Fixture withdraw builder: one prepare cell, fee 5. -/
def fixtureWithdrawBuilder : DAOBuilder := ⟨0, 5, [⟨3, 0, 1000⟩]⟩

/-- The prepare-side txo headers `DAOBuilder::withdraw` resolves on the
fixture. -/
def fixturePrepareHdrs : List (OutPoint × CellOutput × Header) :=
  [(⟨3, 0⟩, CellOutput.mk 1000 (some ⟨7, ScriptHashType.type'⟩)
      (some ⟨5, ScriptHashType.type'⟩), ⟨200, ⟨185, 6, 1000⟩, 88⟩)]

/-- The deposit-side txo headers `DAOBuilder::withdraw` resolves on the
fixture. -/
def fixtureDepositHdrs : List (OutPoint × CellOutput × Header) :=
  [(⟨1, 0⟩, CellOutput.mk 1000 (some ⟨7, ScriptHashType.type'⟩)
      (some ⟨5, ScriptHashType.type'⟩), ⟨123, ⟨5, 5, 1000⟩, 99⟩)]

/-- The transaction `DAOBuilder::withdraw` assembles on the fixture. -/
def fixtureWithdrawTx : Transaction :=
  { inputs := [CellInput.mk ⟨3, 0⟩ (since_from_absolute_epoch_number
      (minimal_unlock_point ⟨5, 5, 1000⟩ ⟨185, 6, 1000⟩).fullValue)],
    outputs := [CellOutput.mk 1000 none none],
    outputs_data := [[]], cell_deps := [70], header_deps := [99, 88],
    witnesses := [(WitnessArgs.mk none (some (le8 0)) none).as_bytes] }

/-- Witness for C6: the fixture withdraw build. -/
theorem withdraw_since_spec_witness :
    fixtureWithdrawTx.inputs = (fixtureDepositHdrs.zip fixturePrepareHdrs).map (fun p =>
      CellInput.mk p.2.1 (0x2000000000000000 |||
        (minimal_unlock_point p.1.2.2.epoch p.2.2.2.epoch).fullValue)) :=
  withdraw_since_spec fixtureEnv fixtureGenesis fixtureWithdrawBuilder
    fixtureWithdrawTx fixturePrepareHdrs fixtureDepositHdrs [⟨1, 0⟩]
    rfl rfl rfl rfl rfl
